import Mathlib

/-!
Verification of the QRV (Quantum Rogue Variable) detection core of the h3lix
repository, shallowly embedded in Lean 4.

Python floats are modelled as real numbers, complex128 as `ℂ`, Python lists
as Lean lists, Python dicts keyed by session id as functions
`String → Option _`, and fallible external calls (repository lookups,
durable sinks) as `Except String _`-valued functions.  Mutation is modelled
by explicit state passing: a method that mutates `self` becomes a function
returning the updated state together with its Python return value.
-/

namespace QRV

/-- States of the HILD state machine, from `core/qrv/models.py` (`HILDState`). -/
inductive HILDState where
  | idle
  | pending
  | clarifying
  | passive_safe
  | resolved
deriving DecidableEq, Repr

/-- `HILDPrompt` from `core/qrv/models.py`.  The `prompt_id` is produced by
`uuid.uuid4()` in the source, which is external entropy; none of the claims
inspect it, so it is carried as an opaque string defaulting to `""`. -/
structure HILDPrompt where
  prompt_id : String := ""
  anchor : String
  ambiguity : String
  request : String

/-- `QMSState` from `core/qrv/models.py`: a complex amplitude vector over a
basis of segment ids.  `meta` only ever holds the `predicted_from` timestamp
set by `HamiltonianBuilder.predict`. -/
structure QMSState where
  basis : List String
  amplitudes : List ℂ
  session_id : Option String := none
  t_rel_ms : Option ℝ := none
  norm : ℝ := 0
  meta : List (String × Option ℝ) := []

/-- `RogueDirection` from `core/qrv/models.py`.  The Python `loadings` dict is
modelled as an association list in insertion order. -/
structure RogueDirection where
  direction_id : String
  eigenvalue : ℝ
  loadings : List (String × ℝ)
  high_segments : List String
  delta_error : ℝ

/-- `RogueDetectionResult` from `core/qrv/models.py`. -/
structure RogueDetectionResult where
  triggered : Bool
  error_norm : ℝ
  ablation_improvement : ℝ
  rogue_directions : List RogueDirection := []
  rogue_segments : List String := []
  event_id : Option String := none
  pre_state : Option QMSState := none
  post_state : Option QMSState := none

/-- `RogueEventRecord` from `core/qrv/models.py`. -/
structure RogueEventRecord where
  id : String
  session_id : String
  t_rel_ms : ℝ
  detection : RogueDetectionResult
  prompt_id : Option String := none

/-- `HILDStatus` from `core/qrv/models.py`. -/
structure HILDStatus where
  session_id : String
  state : HILDState := .idle
  active_event_id : Option String := none
  prompt : Option HILDPrompt := none
  last_transition_ms : Option ℝ := none

/-- `HILDSessionState` from `core/qrv/hild.py`. -/
structure HILDSessionState where
  status : HILDStatus
  unanswered_retry : Bool := false

/-- The `sessions` dict of `HILDStateMachine` (`core/qrv/hild.py`). -/
def HILDMachine : Type := String → Option HILDSessionState

/-- A freshly constructed `HILDStateMachine` has no sessions. -/
def hild_empty : HILDMachine := fun _ => none

/-- `HILDStateMachine.get_status` from `core/qrv/hild.py`. -/
def hild_get_status (m : HILDMachine) (session_id : String) : HILDStatus :=
  match m session_id with
  | none => { session_id := session_id, state := .idle }
  | some s => s.status

/-- `HILDStateMachine._make_prompt` from `core/qrv/hild.py`. -/
def hild_make_prompt (detection : RogueDetectionResult) : HILDPrompt :=
  { anchor := "We observed a divergence between expected and current state."
    ambiguity :=
      "Segments " ++ String.intercalate ", " (detection.rogue_segments.take 3)
        ++ " carry unusual loadings."
    request := "Which activity or context best describes your current state?" }

/-- `HILDStateMachine.on_tick` from `core/qrv/hild.py`, with the mutated
`sessions` dict returned explicitly alongside the returned status. -/
def hild_on_tick (m : HILDMachine) (session_id : String) (t_rel_ms : ℝ)
    (detection : RogueDetectionResult) : HILDMachine × HILDStatus :=
  let created : HILDMachine × HILDSessionState :=
    match m session_id with
    | some s => (m, s)
    | none =>
      let fresh : HILDSessionState :=
        { status := { session_id := session_id, state := .idle,
                      last_transition_ms := some t_rel_ms } }
      (Function.update m session_id (some fresh), fresh)
  let m1 := created.1
  let st := created.2
  let status := st.status
  if detection.triggered = true ∧
      (status.state = HILDState.idle ∨ status.state = HILDState.resolved) then
    let prompt := hild_make_prompt detection
    let status1 : HILDStatus :=
      { session_id := session_id, state := .clarifying,
        active_event_id := detection.event_id, prompt := some prompt,
        last_transition_ms := some t_rel_ms }
    (Function.update m1 session_id (some { status := status1 }), status1)
  else if detection.triggered = true ∧ status.state = HILDState.clarifying then
    (m1, status)
  else if detection.triggered = false ∧ status.state = HILDState.clarifying then
    if st.unanswered_retry = true then
      let status1 : HILDStatus :=
        { session_id := session_id, state := .passive_safe,
          active_event_id := status.active_event_id, prompt := status.prompt,
          last_transition_ms := some t_rel_ms }
      (Function.update m1 session_id
        (some { status := status1, unanswered_retry := st.unanswered_retry }),
       status1)
    else
      (Function.update m1 session_id
        (some { status := status, unanswered_retry := true }), status)
  else if status.state = HILDState.passive_safe ∧ detection.triggered = false then
    let status1 : HILDStatus :=
      { session_id := session_id, state := .resolved,
        active_event_id := status.active_event_id,
        last_transition_ms := some t_rel_ms }
    (Function.update m1 session_id
      (some { status := status1, unanswered_retry := st.unanswered_retry }),
     status1)
  else
    (m1, status)

/-- `HILDStateMachine.acknowledge` from `core/qrv/hild.py`.  The `response`
argument is accepted and ignored, exactly as in the source. -/
def hild_acknowledge (m : HILDMachine) (session_id : String)
    (response : String) (t_rel_ms : ℝ) : HILDMachine × HILDStatus :=
  match m session_id with
  | none =>
    let status : HILDStatus :=
      { session_id := session_id, state := .idle,
        last_transition_ms := some t_rel_ms }
    (Function.update m session_id (some { status := status }), status)
  | some s =>
    let status : HILDStatus :=
      { session_id := session_id, state := .resolved,
        active_event_id := s.status.active_event_id,
        last_transition_ms := some t_rel_ms, prompt := none }
    (Function.update m session_id (some { status := status }), status)

/-- A concrete HILD machine holding one session in `Clarifying` with an
active event id, used to exercise `acknowledge` on an existing session. -/
def hild_m_clarifying : HILDMachine :=
  Function.update hild_empty "s"
    (some { status := { session_id := "s", state := .clarifying,
                        active_event_id := some "ev",
                        prompt := some { anchor := "a", ambiguity := "b", request := "c" } } })

/-- C1 counterexample: `acknowledge` on a session id with no existing state
returns a status in `Idle`, not `Resolved`, refuting the claim that every
call to `acknowledge` returns a `Resolved` status. -/
theorem C1_ack_unknown_session_idle :
    (hild_acknowledge hild_empty "s" "ok" 0).2.state = HILDState.idle ∧
    (hild_acknowledge hild_empty "s" "ok" 0).2.state ≠ HILDState.resolved := by
  constructor <;> simp [hild_acknowledge, hild_empty]

/-- C1 (amended): for a session id with existing state, `acknowledge`
unconditionally returns a `Resolved` status carrying forward the prior
`active_event_id` with the prompt cleared, regardless of the current state;
for a session id with no existing state, a session is created in `Idle` and
the returned status is that `Idle` status (not `Resolved`). -/
theorem C1_acknowledge_spec (m : HILDMachine) (sid response : String) (t : ℝ) :
    (∀ s, m sid = some s →
      (hild_acknowledge m sid response t).2 =
        { session_id := sid, state := .resolved,
          active_event_id := s.status.active_event_id, prompt := none,
          last_transition_ms := some t }) ∧
    (m sid = none →
      (hild_acknowledge m sid response t).2 =
        { session_id := sid, state := .idle, active_event_id := none,
          prompt := none, last_transition_ms := some t } ∧
      (hild_acknowledge m sid response t).1 sid =
        some { status := { session_id := sid, state := .idle,
                           active_event_id := none, prompt := none,
                           last_transition_ms := some t } }) := by
  constructor
  · intro s hs
    simp [hild_acknowledge, hs]
  · intro hn
    simp [hild_acknowledge, hn]

/-- C1 witness: acknowledging the concrete clarifying session of
`hild_m_clarifying` yields `Resolved`, carries the event id forward and
clears the prompt. -/
theorem C1_acknowledge_spec_witness :
    (hild_acknowledge hild_m_clarifying "s" "ok" 5).2 =
      { session_id := "s", state := .resolved, active_event_id := some "ev",
        prompt := none, last_transition_ms := some 5 } := by
  exact (C1_acknowledge_spec hild_m_clarifying "s" "ok" 5).1
    { status := { session_id := "s", state := .clarifying,
                  active_event_id := some "ev",
                  prompt := some { anchor := "a", ambiguity := "b",
                                   request := "c" } } }
    (by simp [hild_m_clarifying])

/-- C4: from a session whose status is `Idle`, ticks with triggered flags
true, false, false, false produce `Clarifying` with a non-null prompt, then
still `Clarifying` (one-tick grace via the unanswered-retry flag), then
`PassiveSafe`, then `Resolved`. -/
theorem C4_hild_scenario (m : HILDMachine) (sid : String) (t1 t2 t3 t4 : ℝ)
    (d1 d2 d3 d4 : RogueDetectionResult)
    (hidle : (hild_get_status m sid).state = HILDState.idle)
    (h1 : d1.triggered = true) (h2 : d2.triggered = false)
    (h3 : d3.triggered = false) (h4 : d4.triggered = false) :
    (hild_on_tick m sid t1 d1).2.state = HILDState.clarifying ∧
    (hild_on_tick m sid t1 d1).2.prompt ≠ none ∧
    (hild_on_tick (hild_on_tick m sid t1 d1).1 sid t2 d2).2.state =
      HILDState.clarifying ∧
    (hild_on_tick (hild_on_tick (hild_on_tick m sid t1 d1).1 sid t2 d2).1
        sid t3 d3).2.state = HILDState.passive_safe ∧
    (hild_on_tick (hild_on_tick (hild_on_tick
        (hild_on_tick m sid t1 d1).1 sid t2 d2).1 sid t3 d3).1
        sid t4 d4).2.state = HILDState.resolved := by
  cases hm : m sid with
  | none =>
    simp [hild_on_tick, hild_get_status, hm, h1, h2, h3, h4,
      Function.update_same]
  | some s =>
    have hstate : s.status.state = HILDState.idle := by
      simpa [hild_get_status, hm] using hidle
    simp [hild_on_tick, hild_get_status, hm, hstate, h1, h2, h3, h4,
      Function.update_same]

/-- A concrete triggered detection used to drive HILD scenarios. -/
def det_triggered : RogueDetectionResult :=
  { triggered := true, error_norm := 1, ablation_improvement := -1,
    rogue_segments := ["a", "b"], event_id := some "ev1" }

/-- A concrete non-triggered detection used to drive HILD scenarios. -/
def det_quiet : RogueDetectionResult :=
  { triggered := false, error_norm := 0, ablation_improvement := 0 }

/-- C4 witness: the scenario run on the empty machine for session `"s"` with
concrete detections realizes the state sequence Clarifying (with a prompt),
Clarifying, PassiveSafe, Resolved. -/
theorem C4_hild_scenario_witness :
    (hild_on_tick hild_empty "s" 0 det_triggered).2.state = HILDState.clarifying ∧
    (hild_on_tick hild_empty "s" 0 det_triggered).2.prompt ≠ none ∧
    (hild_on_tick (hild_on_tick hild_empty "s" 0 det_triggered).1 "s" 1
        det_quiet).2.state = HILDState.clarifying ∧
    (hild_on_tick (hild_on_tick (hild_on_tick hild_empty "s" 0
        det_triggered).1 "s" 1 det_quiet).1 "s" 2 det_quiet).2.state =
      HILDState.passive_safe ∧
    (hild_on_tick (hild_on_tick (hild_on_tick (hild_on_tick hild_empty "s" 0
        det_triggered).1 "s" 1 det_quiet).1 "s" 2 det_quiet).1 "s" 3
        det_quiet).2.state = HILDState.resolved :=
  C4_hild_scenario hild_empty "s" 0 1 2 3 det_triggered det_quiet det_quiet
    det_quiet (by simp [hild_get_status, hild_empty]) rfl rfl rfl rfl

/-- Sum of squared magnitudes of a complex vector. -/
noncomputable def norm_sq_sum (v : List ℂ) : ℝ := (v.map Complex.normSq).sum

/-- `np.linalg.norm` applied to a complex vector: the Euclidean (L2) norm. -/
noncomputable def l2norm (v : List ℂ) : ℝ := Real.sqrt (norm_sq_sum v)

theorem norm_sq_sum_nonneg (v : List ℂ) : 0 ≤ norm_sq_sum v := by
  refine List.sum_nonneg ?_
  intro x hx
  obtain ⟨a, _, rfl⟩ := List.mem_map.mp hx
  exact Complex.normSq_nonneg a

theorem l2norm_nonneg (v : List ℂ) : 0 ≤ l2norm v := Real.sqrt_nonneg _

theorem l2norm_eq_zero_iff (v : List ℂ) : l2norm v = 0 ↔ norm_sq_sum v = 0 :=
  Real.sqrt_eq_zero (norm_sq_sum_nonneg v)

theorem norm_sq_sum_eq_zero_all (v : List ℂ) (h : norm_sq_sum v = 0) :
    ∀ a ∈ v, a = 0 := by
  induction v with
  | nil => intro a ha; cases ha
  | cons b t ih =>
    have hb : 0 ≤ Complex.normSq b := Complex.normSq_nonneg b
    have ht : 0 ≤ norm_sq_sum t := norm_sq_sum_nonneg t
    have hsum : Complex.normSq b + norm_sq_sum t = 0 := by
      simpa [norm_sq_sum] using h
    have hb0 : Complex.normSq b = 0 := by linarith
    have ht0 : norm_sq_sum t = 0 := by linarith
    intro a ha
    rcases List.mem_cons.mp ha with rfl | ha
    · exact Complex.normSq_eq_zero.mp hb0
    · exact ih ht0 a ha

theorem norm_sq_sum_div (v : List ℂ) (c : ℝ) :
    norm_sq_sum (v.map (fun a => a / (c : ℂ))) = norm_sq_sum v / c ^ 2 := by
  induction v with
  | nil => simp [norm_sq_sum]
  | cons b t ih =>
    simp only [norm_sq_sum, List.map_cons, List.sum_cons] at ih ⊢
    rw [ih, Complex.normSq_div, Complex.normSq_ofReal, add_div]
    ring_nf

theorem l2norm_map_div (v : List ℂ) (c : ℝ) (hc : 0 < c) :
    l2norm (v.map (fun a => a / (c : ℂ))) = l2norm v / c := by
  unfold l2norm
  rw [norm_sq_sum_div, Real.sqrt_div (norm_sq_sum_nonneg v),
    Real.sqrt_sq hc.le]

theorem l2norm_normalize (v : List ℂ) (h : 0 < l2norm v) :
    l2norm (v.map (fun a => a / ((l2norm v : ℝ) : ℂ))) = 1 := by
  rw [l2norm_map_div v (l2norm v) h]
  exact div_self h.ne'

/-- A ranked segment as returned by the graph accessor's `top_segments`
(`mpg/repository.py`): a stable id plus the six scalar attributes read by
`QMSBuilder._amplitude_from_segment`. -/
structure Segment where
  id : String
  importance : ℝ := 0
  confidence : ℝ := 0
  stability : ℝ := 0
  recency : ℝ := 0
  intensity : ℝ := 0
  valence : ℝ := 0

/-- One segment-state snapshot as returned by `get_segment_states`; the
`coherence` and `potency` keys are optional (`st.get(...) or 0.0`). -/
structure SegState where
  coherence : Option ℝ := none
  potency : Option ℝ := none

/-- One edge of the weighted directed graph returned by `get_graph`.  The
`strength` and `confidence` attributes are read with defaults 0.0 and 1.0
(`data.get("strength", 0.0)`, `data.get("confidence", 1.0)`). -/
structure GraphEdge where
  src : String
  dst : String
  strength : Option ℝ := none
  confidence : Option ℝ := none

/-- The graph accessor consumed by the QRV core.  `top_segments` and
`get_segment_states` are remote lookups that can raise, modelled as
`Except`; `get_graph` returns the edge list of the weighted directed graph. -/
structure Repo where
  top_segments : ℕ → Except String (List Segment)
  get_segment_states : String → ℕ → Except String (List SegState)
  get_graph : ℕ → List GraphEdge

/-- The amplitude weight dict of `QMSBuilder.__init__` (`core/qrv/qms.py`),
with its reference default values. -/
structure Weights where
  importance : ℝ := 0.4
  confidence : ℝ := 0.25
  stability : ℝ := 0.1
  recency : ℝ := 0.1
  intensity : ℝ := 0.1
  valence : ℝ := 0.05
  coherence : ℝ := 0.15
  potency : ℝ := 0.1

/-- `QMSBuilder._latest_state` from `core/qrv/qms.py`: returns the
(coherence, potency) pair of the latest snapshot; a raising lookup or an
empty result degrades both to 0. -/
def qms_latest_state (repo : Repo) (include_state_metrics : Bool)
    (segment_id : String) : ℝ × ℝ :=
  if include_state_metrics = false then (0, 0)
  else
    match repo.get_segment_states segment_id 1 with
    | .error _ => (0, 0)
    | .ok [] => (0, 0)
    | .ok (st :: _) => (st.coherence.getD 0, st.potency.getD 0)

/-- `QMSBuilder._amplitude_from_segment` from `core/qrv/qms.py`: the
configurable weighted sum of the six static attributes plus the coherence
and potency of the latest state snapshot. -/
def qms_amplitude_from_segment (repo : Repo) (w : Weights)
    (include_state_metrics : Bool) (seg : Segment) : ℝ :=
  let cp := qms_latest_state repo include_state_metrics seg.id
  w.importance * seg.importance + w.confidence * seg.confidence
    + w.stability * seg.stability + w.recency * seg.recency
    + w.intensity * seg.intensity + w.valence * seg.valence
    + w.coherence * cp.1 + w.potency * cp.2

/-- Elementwise addition of a real override vector into the first entries of
an amplitude vector: `overrides = overrides[:size]; amplitudes[:size] += overrides`
from `QMSBuilder.build_from_segments`. -/
def apply_overrides : List ℂ → List ℝ → List ℂ
  | as, [] => as
  | [], _ => []
  | a :: as, o :: os => (a + (o : ℂ)) :: apply_overrides as os

theorem apply_overrides_length (as : List ℂ) (os : List ℝ) :
    (apply_overrides as os).length = as.length := by
  induction as generalizing os with
  | nil => cases os <;> rfl
  | cons a t ih => cases os with
    | nil => rfl
    | cons o os => simp [apply_overrides, ih]

/-- The amplitude vector of `QMSBuilder.build_from_segments` just before
normalization: one encoded scalar per segment, with the (truncated) feature
overrides added into the leading entries. -/
noncomputable def qms_pre_amps (repo : Repo) (w : Weights)
    (include_state_metrics : Bool) (segments : List Segment)
    (feature_overrides : Option (List ℝ)) : List ℂ :=
  let amps0 : List ℂ := segments.map (fun seg =>
    ((qms_amplitude_from_segment repo w include_state_metrics seg : ℝ) : ℂ))
  match feature_overrides with
  | none => amps0
  | some ov => apply_overrides amps0 ov

theorem qms_pre_amps_length (repo : Repo) (w : Weights) (inc : Bool)
    (segs : List Segment) (ov : Option (List ℝ)) :
    (qms_pre_amps repo w inc segs ov).length = segs.length := by
  cases ov with
  | none => simp [qms_pre_amps]
  | some o => simp [qms_pre_amps, apply_overrides_length]

/-- The body of `QMSBuilder.build_from_segments` after the `top_segments`
call has returned: encode each segment, add overrides, L2-normalize if the
pre-normalization magnitude is positive. -/
noncomputable def qms_build_pure (repo : Repo) (w : Weights)
    (include_state_metrics : Bool) (session_id : String) (t_rel_ms : ℝ)
    (segments : List Segment) (feature_overrides : Option (List ℝ)) : QMSState :=
  let basis := segments.map (fun seg => seg.id)
  let amps1 := qms_pre_amps repo w include_state_metrics segments feature_overrides
  let norm := l2norm amps1
  let amps2 := if 0 < norm then amps1.map (fun a => a / ((norm : ℝ) : ℂ)) else amps1
  { basis := basis, amplitudes := amps2, session_id := some session_id,
    t_rel_ms := some t_rel_ms, norm := norm }

theorem qms_build_pure_norm (repo : Repo) (w : Weights) (inc : Bool)
    (sid : String) (t : ℝ) (segs : List Segment) (ov : Option (List ℝ)) :
    (qms_build_pure repo w inc sid t segs ov).norm =
      l2norm (qms_pre_amps repo w inc segs ov) := rfl

theorem qms_build_pure_amplitudes (repo : Repo) (w : Weights) (inc : Bool)
    (sid : String) (t : ℝ) (segs : List Segment) (ov : Option (List ℝ)) :
    (qms_build_pure repo w inc sid t segs ov).amplitudes =
      (if 0 < l2norm (qms_pre_amps repo w inc segs ov) then
        (qms_pre_amps repo w inc segs ov).map
          (fun a => a / ((l2norm (qms_pre_amps repo w inc segs ov) : ℝ) : ℂ))
      else qms_pre_amps repo w inc segs ov) := rfl

/-- `QMSBuilder.build_from_segments` from `core/qrv/qms.py`.  The unguarded
`top_segments` call propagates its failure. -/
noncomputable def build_from_segments (repo : Repo) (w : Weights)
    (include_state_metrics : Bool) (session_id : String) (t_rel_ms : ℝ)
    (limit : ℕ) (feature_overrides : Option (List ℝ)) : Except String QMSState :=
  match repo.top_segments limit with
  | .error e => .error e
  | .ok segments =>
    .ok (qms_build_pure repo w include_state_metrics session_id t_rel_ms
      segments feature_overrides)

/-- C7: any successfully built QMS state over a non-empty basis has
unit-L2-norm amplitudes whenever the stored pre-normalization magnitude is
strictly positive, and all-zero amplitudes when that magnitude is 0. -/
theorem C7_build_unit_norm (repo : Repo) (w : Weights)
    (include_state_metrics : Bool) (sid : String) (t : ℝ) (limit : ℕ)
    (ov : Option (List ℝ)) (st : QMSState)
    (hok : build_from_segments repo w include_state_metrics sid t limit ov =
      Except.ok st)
    (hne : st.basis ≠ []) :
    (0 < st.norm → l2norm st.amplitudes = 1) ∧
    (st.norm = 0 → ∀ a ∈ st.amplitudes, a = 0) := by
  unfold build_from_segments at hok
  cases htop : repo.top_segments limit with
  | error e => rw [htop] at hok; cases hok
  | ok segs =>
    rw [htop] at hok
    have hst : qms_build_pure repo w include_state_metrics sid t segs ov = st :=
      by injection hok
    subst hst
    rw [qms_build_pure_norm, qms_build_pure_amplitudes]
    constructor
    · intro hpos
      rw [if_pos hpos]
      exact l2norm_normalize _ hpos
    · intro hzero
      rw [if_neg (by rw [hzero]; exact lt_irrefl 0)]
      exact norm_sq_sum_eq_zero_all _ ((l2norm_eq_zero_iff _).mp hzero)

/-- Weight configuration with all weight on `importance`, used for concrete
witnesses where the encoded amplitude should be exactly 1. -/
noncomputable def w_imp : Weights :=
  { importance := 1, confidence := 0, stability := 0, recency := 0,
    intensity := 0, valence := 0, coherence := 0, potency := 0 }

/-- Segment `"a"` with importance 1 and all other attributes 0. -/
noncomputable def seg_a1 : Segment := { id := "a", importance := 1 }

/-- A one-segment repository whose state lookups return no snapshots. -/
noncomputable def repo_one : Repo :=
  { top_segments := fun _ => .ok [seg_a1],
    get_segment_states := fun _ _ => .ok [],
    get_graph := fun _ => [] }

/-- The QMS state built from `repo_one` with the `w_imp` weights. -/
noncomputable def st_one : QMSState :=
  qms_build_pure repo_one w_imp true "s" 0 [seg_a1] none

/-- C7 witness: on the concrete one-segment repository the build succeeds,
the pre-normalization magnitude is positive, and the theorem yields unit
L2 norm for the amplitudes. -/
theorem C7_build_unit_norm_witness :
    build_from_segments repo_one w_imp true "s" 0 5 none = Except.ok st_one ∧
    0 < st_one.norm ∧ l2norm st_one.amplitudes = 1 := by
  have hamp : qms_amplitude_from_segment repo_one w_imp true seg_a1 = 1 := by
    simp [qms_amplitude_from_segment, qms_latest_state, repo_one, w_imp, seg_a1]
  have hnorm : st_one.norm = 1 := by
    simp [st_one, qms_build_pure, qms_pre_amps, hamp, l2norm, norm_sq_sum]
  have hok : build_from_segments repo_one w_imp true "s" 0 5 none =
      Except.ok st_one := by
    simp [build_from_segments, repo_one, st_one]
  have hbasis : st_one.basis ≠ [] := by
    simp [st_one, qms_build_pure, seg_a1]
  refine ⟨hok, by rw [hnorm]; norm_num, ?_⟩
  exact (C7_build_unit_norm repo_one w_imp true "s" 0 5 none st_one hok
    hbasis).1 (by rw [hnorm]; norm_num)

/-- C8: when `top_segments` yields N segments, the build returns normally
(no exception) with an amplitude vector of length exactly N, and any segment
whose per-segment state lookup raises has its coherence and potency
contributions degraded to 0. -/
theorem C8_fault_isolated_build (repo : Repo) (w : Weights) (sid : String)
    (t : ℝ) (limit : ℕ) (ov : Option (List ℝ)) (segs : List Segment)
    (htop : repo.top_segments limit = Except.ok segs) :
    build_from_segments repo w true sid t limit ov =
      Except.ok (qms_build_pure repo w true sid t segs ov) ∧
    (qms_build_pure repo w true sid t segs ov).amplitudes.length = segs.length ∧
    ∀ seg ∈ segs, ∀ err,
      repo.get_segment_states seg.id 1 = Except.error err →
      qms_latest_state repo true seg.id = (0, 0) ∧
      qms_amplitude_from_segment repo w true seg =
        w.importance * seg.importance + w.confidence * seg.confidence
          + w.stability * seg.stability + w.recency * seg.recency
          + w.intensity * seg.intensity + w.valence * seg.valence := by
  refine ⟨by simp [build_from_segments, htop], ?_, ?_⟩
  · rw [qms_build_pure_amplitudes]
    have hlen := qms_pre_amps_length repo w true segs ov
    split <;> simp [hlen]
  · intro seg _ err herr
    have hlatest : qms_latest_state repo true seg.id = (0, 0) := by
      simp [qms_latest_state, herr]
    refine ⟨hlatest, ?_⟩
    simp [qms_amplitude_from_segment, hlatest]

/-- Segment `"b"`, whose state lookup fails in `repo_faulty`. -/
noncomputable def seg_b1 : Segment := { id := "b", importance := 1 }

/-- A two-segment repository whose state lookup raises for segment `"b"`
and succeeds for every other segment. -/
noncomputable def repo_faulty : Repo :=
  { top_segments := fun _ => .ok [seg_a1, seg_b1],
    get_segment_states := fun sid _ =>
      if sid = "b" then .error "state lookup failed"
      else .ok [{ coherence := some 1, potency := some 1 }],
    get_graph := fun _ => [] }

/-- C8 witness: with segment `"b"`'s state lookup raising, the build still
returns a 2-length amplitude vector and `"b"`'s amplitude carries zero
coherence and potency contributions. -/
theorem C8_fault_isolated_build_witness :
    (qms_build_pure repo_faulty w_imp true "s" 0 [seg_a1, seg_b1] none).amplitudes.length = 2 ∧
    qms_amplitude_from_segment repo_faulty w_imp true seg_b1 =
      w_imp.importance * seg_b1.importance
        + w_imp.confidence * seg_b1.confidence
        + w_imp.stability * seg_b1.stability
        + w_imp.recency * seg_b1.recency
        + w_imp.intensity * seg_b1.intensity
        + w_imp.valence * seg_b1.valence := by
  have h := C8_fault_isolated_build repo_faulty w_imp "s" 0 5 none
    [seg_a1, seg_b1] rfl
  refine ⟨by simpa using h.2.1, ?_⟩
  exact (h.2.2 seg_b1 (by simp) "state lookup failed"
    (by simp [repo_faulty, seg_b1])).2

/-- The index dict `{node_id: i for i, node_id in enumerate(basis)}` of
`HamiltonianBuilder.build`: a Python dict comprehension keeps the last
occurrence of a duplicated key, so this is the index of the last occurrence
of `s` in `basis`. -/
def index_map (basis : List String) (s : String) : Option ℕ :=
  ((basis.enum.filter (fun p => p.2 = s)).getLast?).map (fun p => p.1)

/-- The pre-damping Hamiltonian entry: `strength × confidence` accumulated
over every graph edge (u, v) whose endpoints both index into the basis at
(i, j) (`h[i, j] += strength * confidence` in `HamiltonianBuilder.build`). -/
noncomputable def ham_entry (repo : Repo) (basis : List String) (level : ℕ)
    (i j : ℕ) : ℂ :=
  (repo.get_graph level).foldl (fun acc e =>
    if index_map basis e.src = some i ∧ index_map basis e.dst = some j then
      acc + (((e.strength.getD 0) * (e.confidence.getD 1) : ℝ) : ℂ)
    else acc) 0

/-- `HamiltonianBuilder.build` from `core/qrv/hamiltonian.py`: the edge
accumulation followed by the diagonal stabilization
`h[i, i] -= diag_damping * sum(abs(h[i]))`. -/
noncomputable def ham_build (repo : Repo) (diag_damping : ℝ)
    (basis : List String) (level : ℕ) : ℕ → ℕ → ℂ := fun i j =>
  ham_entry repo basis level i j -
    (if i = j then
      (((diag_damping *
        ((List.range basis.length).map
          (fun k => Complex.abs (ham_entry repo basis level i k))).sum : ℝ)) : ℂ)
    else 0)

/-- The un-normalized prediction
`psi_pred = psi_prev - i * dt * (H @ psi_prev)` (first-order approximation
to `exp(-iH dt)`) of `HamiltonianBuilder.predict`. -/
noncomputable def ham_pred_raw (repo : Repo) (diag_damping : ℝ)
    (prev_state : QMSState) (dt : ℝ) : List ℂ :=
  let psi_prev := prev_state.amplitudes
  let h := ham_build repo diag_damping prev_state.basis 1
  let n := prev_state.basis.length
  let h_psi : List ℂ := (List.range n).map (fun i =>
    ((List.range n).map (fun j => h i j * psi_prev.getD j 0)).sum)
  (List.range n).map (fun i =>
    psi_prev.getD i 0 - Complex.I * (dt : ℂ) * h_psi.getD i 0)

theorem ham_pred_raw_length (repo : Repo) (diag_damping : ℝ)
    (prev_state : QMSState) (dt : ℝ) :
    (ham_pred_raw repo diag_damping prev_state dt).length =
      prev_state.basis.length := by
  simp [ham_pred_raw]

/-- `HamiltonianBuilder.predict` from `core/qrv/hamiltonian.py`: the raw
first-order prediction, re-normalized to unit L2 norm when nonzero. -/
noncomputable def ham_predict (repo : Repo) (diag_damping : ℝ)
    (prev_state : QMSState) (dt : ℝ) : QMSState :=
  let psi_pred := ham_pred_raw repo diag_damping prev_state dt
  let norm := l2norm psi_pred
  let psi_pred1 :=
    if 0 < norm then psi_pred.map (fun a => a / ((norm : ℝ) : ℂ)) else psi_pred
  { basis := prev_state.basis, amplitudes := psi_pred1,
    session_id := prev_state.session_id, t_rel_ms := prev_state.t_rel_ms,
    norm := norm, meta := [("predicted_from", prev_state.t_rel_ms)] }

theorem ham_predict_amplitudes (repo : Repo) (diag_damping : ℝ)
    (prev_state : QMSState) (dt : ℝ) :
    (ham_predict repo diag_damping prev_state dt).amplitudes =
      (if 0 < l2norm (ham_pred_raw repo diag_damping prev_state dt) then
        (ham_pred_raw repo diag_damping prev_state dt).map
          (fun a =>
            a / ((l2norm (ham_pred_raw repo diag_damping prev_state dt) : ℝ) : ℂ))
      else ham_pred_raw repo diag_damping prev_state dt) := rfl

theorem ham_predict_norm (repo : Repo) (diag_damping : ℝ)
    (prev_state : QMSState) (dt : ℝ) :
    (ham_predict repo diag_damping prev_state dt).norm =
      l2norm (ham_pred_raw repo diag_damping prev_state dt) := rfl

theorem ham_predict_basis (repo : Repo) (diag_damping : ℝ)
    (prev_state : QMSState) (dt : ℝ) :
    (ham_predict repo diag_damping prev_state dt).basis =
      prev_state.basis := rfl

/-- C9: `predict` is total (never throws) on any prior state whose amplitude
and basis lengths agree and any dt at or above the 1ms-equivalent floor: the
result always satisfies `len(amplitudes) == len(basis)`, and an empty basis
yields empty predicted amplitudes (from the 0-by-0 Hamiltonian) with norm 0. -/
theorem C9_predict_shape (repo : Repo) (diag_damping : ℝ) (prev : QMSState)
    (dt : ℝ) (hlen : prev.amplitudes.length = prev.basis.length)
    (hdt : 0.001 ≤ dt) :
    (ham_predict repo diag_damping prev dt).amplitudes.length =
      (ham_predict repo diag_damping prev dt).basis.length ∧
    (prev.basis = [] →
      (ham_predict repo diag_damping prev dt).amplitudes = [] ∧
      (ham_predict repo diag_damping prev dt).norm = 0) := by
  have hraw := ham_pred_raw_length repo diag_damping prev dt
  constructor
  · rw [ham_predict_amplitudes, ham_predict_basis]
    split <;> simp [hraw]
  · intro hempty
    have hnil : ham_pred_raw repo diag_damping prev dt = [] := by
      have := ham_pred_raw_length repo diag_damping prev dt
      rw [hempty] at this
      exact List.length_eq_zero.mp this
    constructor
    · rw [ham_predict_amplitudes, hnil]
      split <;> simp
    · rw [ham_predict_norm, hnil]
      simp [l2norm, norm_sq_sum]

/-- A prior state over the empty basis. -/
noncomputable def st_empty : QMSState :=
  { basis := [], amplitudes := [], session_id := some "s", t_rel_ms := some 0 }

/-- C9 witness: predicting forward from the empty-basis prior with the
floored dt returns empty amplitudes (matching the empty basis) with norm 0. -/
theorem C9_predict_shape_witness :
    (ham_predict repo_one (0.1 : ℝ) st_empty 0.001).amplitudes.length =
      (ham_predict repo_one (0.1 : ℝ) st_empty 0.001).basis.length ∧
    (ham_predict repo_one (0.1 : ℝ) st_empty 0.001).amplitudes = [] ∧
    (ham_predict repo_one (0.1 : ℝ) st_empty 0.001).norm = 0 := by
  have h := C9_predict_shape repo_one (0.1 : ℝ) st_empty 0.001
    (by simp [st_empty]) le_rfl
  exact ⟨h.1, h.2 (by simp [st_empty])⟩

/-- Configuration of `SpectralRogueDetector.__init__` with its default
values. -/
structure DetectorConfig where
  max_directions : ℕ := 3
  loading_top_k : ℕ := 5
  improvement_tolerance : ℝ := 1e-6

/-- The default detector configuration. -/
noncomputable def cfg_default : DetectorConfig := {}

/-- Elementwise subtraction of two equal-length complex vectors
(numpy array subtraction). -/
def list_sub (a b : List ℂ) : List ℂ := List.zipWith (fun x y => x - y) a b

/-- `SpectralRogueDetector._error_operator`: the Hermitian outer product
`delta ⊗ conj(delta)` together with `error_norm = ‖delta‖₂`. -/
noncomputable def error_operator (psi_obs psi_pred : List ℂ) :
    (ℕ → ℕ → ℂ) × ℝ :=
  let delta := list_sub psi_obs psi_pred
  (fun i j => delta.getD i 0 * (starRingEnd ℂ) (delta.getD j 0), l2norm delta)

/-- The type of the external Hermitian eigensolver `np.linalg.eigh`: given a
matrix and its dimension, it returns (eigenvalue, eigenvector-column) pairs,
with eigenvalues in ascending order per the numpy contract.  The detector is
parametrized by it; theorems constrain its output where needed. -/
def Eigh : Type := (ℕ → ℕ → ℂ) → ℕ → List (ℝ × List ℂ)

/-- `list(dict.fromkeys(high_segments))`: deduplication keeping the first
occurrence of each element, in first-seen order. -/
def dedup_first : List String → List String
  | [] => []
  | a :: as => a :: (dedup_first as).filter (fun b => b != a)

/-- One insertion step of the model of `np.argsort(mags)[::-1]`: `i` is
placed after every already-placed `j` of strictly larger magnitude, and
after equal-magnitude `j` of larger index (the order produced by reversing
an ascending stable sort).  numpy's default introsort leaves the order of
ties unspecified; none of the proved claims depend on the tie order. -/
noncomputable def insert_desc (mags : ℕ → ℝ) (i : ℕ) : List ℕ → List ℕ
  | [] => [i]
  | j :: js =>
    if mags i < mags j ∨ (mags j = mags i ∧ i < j) then j :: insert_desc mags i js
    else i :: j :: js

/-- Model of `np.argsort(mags)[::-1]` over indices `0, …, n-1`. -/
noncomputable def argsort_desc (mags : ℕ → ℝ) (n : ℕ) : List ℕ :=
  (List.range n).foldl (fun acc i => insert_desc mags i acc) []

/-- `mags = np.abs(vec)` as a function of the index. -/
noncomputable def vec_mags (vec : List ℂ) : ℕ → ℝ :=
  fun i => Complex.abs (vec.getD i 0)

/-- `SpectralRogueDetector._top_loadings`: indices sorted by descending
magnitude, truncated to `loading_top_k`, kept only where the magnitude is
strictly positive, mapped to basis ids. -/
noncomputable def top_loadings (cfg : DetectorConfig) (vec : List ℂ)
    (basis : List String) : List String :=
  let sorted_idx := argsort_desc (vec_mags vec) vec.length
  let top_idx := sorted_idx.take cfg.loading_top_k
  (top_idx.filter (fun i => decide (0 < vec_mags vec i))).map
    (fun i => basis.getD i "")

/-- `SpectralRogueDetector._ablate`: zero the candidate positions of the
observed vector, re-normalize when nonzero, and return the distance to the
predicted vector. -/
noncomputable def spectral_ablate (psi_obs psi_pred : List ℂ)
    (indices : List ℕ) : ℝ :=
  let psi_hat : List ℂ := (List.range psi_obs.length).map (fun i =>
    if i ∈ indices then 0 else psi_obs.getD i 0)
  let norm := l2norm psi_hat
  let psi_hat1 :=
    if 0 < norm then psi_hat.map (fun a => a / ((norm : ℝ) : ℂ)) else psi_hat
  l2norm (list_sub psi_hat1 psi_pred)

/-- The error operator the detector feeds to the eigensolver. -/
noncomputable def detect_oe (observed predicted : QMSState) : ℕ → ℕ → ℂ :=
  (error_operator observed.amplitudes predicted.amplitudes).1

/-- The (original-index, (eigenvalue, eigenvector)) pairs the detector
iterates: `np.linalg.eigh` returns eigenvalues in ascending order, so
`np.argsort(eigvals)[::-1][:max_directions]` visits the pairs in reversed
position order, truncated to `max_directions`. -/
noncomputable def detect_ordered (cfg : DetectorConfig) (eigh : Eigh)
    (observed predicted : QMSState) : List (ℕ × (ℝ × List ℂ)) :=
  ((eigh (detect_oe observed predicted) observed.amplitudes.length).enum).reverse.take
    cfg.max_directions

/-- `unique_high = list(dict.fromkeys(high_segments))` of
`SpectralRogueDetector.detect`. -/
noncomputable def detect_unique_high (cfg : DetectorConfig) (eigh : Eigh)
    (observed predicted : QMSState) : List String :=
  dedup_first
    (((detect_ordered cfg eigh observed predicted).map
      (fun p => top_loadings cfg p.2.2 observed.basis)).join)

/-- `ablate_indices = [observed.basis.index(seg) for seg in unique_high if seg in observed.basis]`. -/
noncomputable def detect_ablate_indices (cfg : DetectorConfig) (eigh : Eigh)
    (observed predicted : QMSState) : List ℕ :=
  ((detect_unique_high cfg eigh observed predicted).filter
    (fun seg => decide (seg ∈ observed.basis))).map
    (fun seg => observed.basis.indexOf seg)

/-- `improvement = ablated_error - error_norm` of `SpectralRogueDetector.detect`. -/
noncomputable def detect_improvement (cfg : DetectorConfig) (eigh : Eigh)
    (observed predicted : QMSState) : ℝ :=
  spectral_ablate observed.amplitudes predicted.amplitudes
      (detect_ablate_indices cfg eigh observed predicted) -
    (error_operator observed.amplitudes predicted.amplitudes).2

/-- The `rogue_dirs` list of `SpectralRogueDetector.detect`, with the shared
`delta_error` already set to the ablation improvement (the code first builds
the directions with `delta_error=0.0` and then overwrites each one). -/
noncomputable def detect_directions (cfg : DetectorConfig) (eigh : Eigh)
    (observed predicted : QMSState) : List RogueDirection :=
  (detect_ordered cfg eigh observed predicted).map (fun p =>
    { direction_id := "chi_" ++ toString p.1,
      eigenvalue := p.2.1,
      loadings := observed.basis.enum.map
        (fun q => (q.2, Complex.abs (p.2.2.getD q.1 0) ^ 2)),
      high_segments := top_loadings cfg p.2.2 observed.basis,
      delta_error := detect_improvement cfg eigh observed predicted })

/-- `SpectralRogueDetector.detect` from `core/qrv/spectral.py`: empty
observed amplitudes short-circuit to a non-triggered zero result; otherwise
eigendecompose the error operator, ablate the union of high segments, and
trigger when the ablation improvement falls below `-improvement_tolerance`. -/
noncomputable def detect (cfg : DetectorConfig) (eigh : Eigh)
    (observed predicted : QMSState) : RogueDetectionResult :=
  if observed.amplitudes.length = 0 then
    { triggered := false, error_norm := 0, ablation_improvement := 0,
      rogue_directions := [], rogue_segments := [],
      pre_state := some observed, post_state := some predicted }
  else
    { triggered := decide (detect_improvement cfg eigh observed predicted <
        -cfg.improvement_tolerance),
      error_norm := (error_operator observed.amplitudes predicted.amplitudes).2,
      ablation_improvement := detect_improvement cfg eigh observed predicted,
      rogue_directions := detect_directions cfg eigh observed predicted,
      rogue_segments := detect_unique_high cfg eigh observed predicted,
      pre_state := some observed, post_state := some predicted }

theorem list_sub_self (a : List ℂ) :
    list_sub a a = List.replicate a.length 0 := by
  induction a with
  | nil => rfl
  | cons b t ih =>
    show (b - b) :: list_sub t t = 0 :: List.replicate t.length 0
    rw [sub_self, ih]

theorem l2norm_replicate_zero (n : ℕ) :
    l2norm (List.replicate n (0 : ℂ)) = 0 := by
  rw [l2norm_eq_zero_iff]
  induction n with
  | zero => simp [norm_sq_sum]
  | succ k ih => simpa [norm_sq_sum, List.replicate_succ] using ih

/-- C6: comparing any state with itself yields error norm 0 and no trigger:
the ablation improvement of a zero-error tick is a nonnegative distance and
can never fall below the (nonnegative) tolerance's negation.  This holds for
every eigensolver output. -/
theorem C6_detect_self (cfg : DetectorConfig) (eigh : Eigh) (x : QMSState)
    (hne : x.amplitudes ≠ [])
    (htol : 0 ≤ cfg.improvement_tolerance) :
    (detect cfg eigh x x).error_norm = 0 ∧
    (detect cfg eigh x x).triggered = false := by
  have hlen : ¬(x.amplitudes.length = 0) := by
    simpa [List.length_eq_zero] using hne
  have herr : (error_operator x.amplitudes x.amplitudes).2 = 0 := by
    show l2norm (list_sub x.amplitudes x.amplitudes) = 0
    rw [list_sub_self, l2norm_replicate_zero]
  unfold detect
  rw [if_neg hlen]
  refine ⟨herr, ?_⟩
  have himp : 0 ≤ detect_improvement cfg eigh x x := by
    unfold detect_improvement
    rw [herr, sub_zero]
    exact Real.sqrt_nonneg _
  exact decide_eq_false (by linarith)

/-- A concrete non-empty one-segment state. -/
noncomputable def x_one : QMSState := { basis := ["a"], amplitudes := [1] }

/-- A degenerate eigensolver returning no pairs, enough for C6 since the
self-comparison result does not depend on the eigensolver. -/
def eigh_trivial : Eigh := fun _ _ => []

/-- C6 witness: the self-comparison of the concrete non-empty state `x_one`
under the default configuration. -/
theorem C6_detect_self_witness :
    (detect cfg_default eigh_trivial x_one x_one).error_norm = 0 ∧
    (detect cfg_default eigh_trivial x_one x_one).triggered = false :=
  C6_detect_self cfg_default eigh_trivial x_one (by simp [x_one])
    (by norm_num [cfg_default])

/-- The observed state of the C5 scenario: basis `["a", "b"]`, amplitudes
`[1, 0]`. -/
noncomputable def obs_c5 : QMSState :=
  { basis := ["a", "b"], amplitudes := [1, 0], norm := 1 }

/-- The predicted state of the C5 scenario: same basis, amplitudes `[0, 1]`. -/
noncomputable def pred_c5 : QMSState :=
  { basis := ["a", "b"], amplitudes := [0, 1], norm := 1 }

/-- The error operator of the C5 scenario: the outer product of
`delta = [1, -1]` with its conjugate. -/
noncomputable def oe_c5 : ℕ → ℕ → ℂ := detect_oe obs_c5 pred_c5

/-- The numpy `eigh` contract for one returned column: a unit-norm
eigenvector of the matrix with real eigenvalue `l`. -/
def unit_eigvec (m : ℕ → ℕ → ℂ) (n : ℕ) (l : ℝ) (v : List ℂ) : Prop :=
  v.length = n ∧ norm_sq_sum v = 1 ∧
  ∀ i < n, ((List.range n).map (fun j => m i j * v.getD j 0)).sum =
    ((l : ℝ) : ℂ) * v.getD i 0

theorem oe_c5_00 : oe_c5 0 0 = 1 := by
  simp [oe_c5, detect_oe, error_operator, obs_c5, pred_c5, list_sub]

theorem oe_c5_01 : oe_c5 0 1 = -1 := by
  simp [oe_c5, detect_oe, error_operator, obs_c5, pred_c5, list_sub]

theorem oe_c5_10 : oe_c5 1 0 = -1 := by
  simp [oe_c5, detect_oe, error_operator, obs_c5, pred_c5, list_sub]

theorem oe_c5_11 : oe_c5 1 1 = 1 := by
  simp [oe_c5, detect_oe, error_operator, obs_c5, pred_c5, list_sub]

/-- Every unit eigenvector of the C5 error operator has squared magnitude
exactly 1/2 at each of its two positions: the operator is the rank-1 outer
product of `[1, -1]`, whose eigenspaces are spanned by `[1, -1]` and
`[1, 1]`. -/
theorem eigvec_oe_c5_normSq (l : ℝ) (v : List ℂ)
    (h : unit_eigvec oe_c5 2 l v) :
    ∃ x y, v = [x, y] ∧ Complex.normSq x = 1 / 2 ∧
      Complex.normSq y = 1 / 2 := by
  obtain ⟨hlen, hunit, heigv⟩ := h
  rcases v with _ | ⟨x, _ | ⟨y, _ | ⟨z, t⟩⟩⟩
  case nil => simp at hlen
  case cons.nil => simp at hlen
  case cons.cons.cons =>
    simp only [List.length_cons] at hlen
    omega
  · have e0 := heigv 0 (by norm_num)
    have e1 := heigv 1 (by norm_num)
    have hr2 : List.range 2 = [0, 1] := rfl
    rw [hr2] at e0 e1
    simp only [List.map_cons, List.map_nil, List.sum_cons, List.sum_nil,
      List.getD_cons_zero, List.getD_cons_succ, add_zero,
      oe_c5_00, oe_c5_01, oe_c5_10, oe_c5_11] at e0 e1
    have hy : y = (1 - ((l : ℝ) : ℂ)) * x := by linear_combination -e0
    have hx : x = (1 - ((l : ℝ) : ℂ)) * y := by linear_combination -e1
    have hunit2 : Complex.normSq x + Complex.normSq y = 1 := by
      simpa [norm_sq_sum] using hunit
    by_cases hx0 : x = 0
    · rw [hx0, mul_zero] at hy
      rw [hx0, hy] at hunit2
      simp at hunit2
    · have hsq : (1 - ((l : ℝ) : ℂ)) ^ 2 = 1 := by
        have hxx : x = (1 - ((l : ℝ) : ℂ)) ^ 2 * x := by
          rw [hy] at hx
          ring_nf
          ring_nf at hx
          exact hx
        have : ((1 - ((l : ℝ) : ℂ)) ^ 2 - 1) * x = 0 := by
          linear_combination -hxx
        rcases mul_eq_zero.mp this with h1 | h2
        · linear_combination h1
        · exact absurd h2 hx0
      have hrsq : (1 - l) ^ 2 = 1 := by
        have h2 : (((1 - l) ^ 2 : ℝ) : ℂ) = ((1 : ℝ) : ℂ) := by
          push_cast
          linear_combination hsq
        exact_mod_cast h2
      have hnsq : Complex.normSq (1 - ((l : ℝ) : ℂ)) = 1 := by
        have hcast : (1 - ((l : ℝ) : ℂ)) = (((1 - l : ℝ)) : ℂ) := by
          push_cast; ring
        rw [hcast, Complex.normSq_ofReal]
        nlinarith [hrsq]
      have hyx : Complex.normSq y = Complex.normSq x := by
        rw [hy, Complex.normSq_mul, hnsq, one_mul]
      refine ⟨x, y, rfl, by linarith, by linarith⟩

/-- Every eigensolver column satisfying the `eigh` contract on the C5 error
operator has strictly positive magnitude at both indices, with the two
magnitudes equal; `_top_loadings` therefore returns both basis ids, the
larger index first. -/
theorem top_loadings_eigvec_c5 (l : ℝ) (v : List ℂ)
    (h : unit_eigvec oe_c5 2 l v) :
    top_loadings cfg_default v ["a", "b"] = ["b", "a"] := by
  obtain ⟨x, y, rfl, hx, hy⟩ := eigvec_oe_c5_normSq l v h
  have hm0 : vec_mags [x, y] 0 = Complex.abs x := rfl
  have hm1 : vec_mags [x, y] 1 = Complex.abs y := rfl
  have habs : Complex.abs y = Complex.abs x := by
    rw [Complex.abs_apply, Complex.abs_apply, hx, hy]
  have hpos : 0 < Complex.abs x := by
    rw [Complex.abs_apply, hx]
    exact Real.sqrt_pos.mpr (by norm_num)
  have hsort : argsort_desc (vec_mags [x, y]) 2 = [1, 0] := by
    have hstep : argsort_desc (vec_mags [x, y]) 2 =
        insert_desc (vec_mags [x, y]) 1 [0] := rfl
    rw [hstep,
      show insert_desc (vec_mags [x, y]) 1 [0] =
        if vec_mags [x, y] 1 < vec_mags [x, y] 0 ∨
            (vec_mags [x, y] 0 = vec_mags [x, y] 1 ∧ 1 < 0) then
          (0 : ℕ) :: insert_desc (vec_mags [x, y]) 1 []
        else [1, 0] from rfl]
    rw [if_neg]
    push_neg
    constructor
    · rw [hm0, hm1, habs]
    · intro _
      norm_num
  have hd0 : decide (0 < vec_mags [x, y] 0) = true :=
    decide_eq_true (by rw [hm0]; exact hpos)
  have hd1 : decide (0 < vec_mags [x, y] 1) = true :=
    decide_eq_true (by rw [hm1, habs]; exact hpos)
  simp only [top_loadings]
  rw [show List.length [x, y] = 2 from rfl, hsort]
  rw [show List.take cfg_default.loading_top_k [1, 0] = [1, 0] from rfl]
  simp [List.filter, hd0, hd1]

/-- C5: with the default configuration, `detect` on observed `[1, 0]` and
predicted `[0, 1]` over basis `["a", "b"]` triggers and implicates segment
`"a"`, for every eigensolver output satisfying the `eigh` contract (two
returned pairs, each a unit eigenvector of the error operator). -/
theorem C5_detect_triggers (eigh : Eigh) (l1 l2 : ℝ) (v1 v2 : List ℂ)
    (heig : eigh oe_c5 2 = [(l1, v1), (l2, v2)])
    (h1 : unit_eigvec oe_c5 2 l1 v1) (h2 : unit_eigvec oe_c5 2 l2 v2) :
    (detect cfg_default eigh obs_c5 pred_c5).triggered = true ∧
    "a" ∈ (detect cfg_default eigh obs_c5 pred_c5).rogue_segments := by
  have hord : detect_ordered cfg_default eigh obs_c5 pred_c5 =
      [(1, (l2, v2)), (0, (l1, v1))] := by
    unfold detect_ordered
    rw [show obs_c5.amplitudes.length = 2 from rfl,
      show detect_oe obs_c5 pred_c5 = oe_c5 from rfl, heig]
    rfl
  have t1 := top_loadings_eigvec_c5 l1 v1 h1
  have t2 := top_loadings_eigvec_c5 l2 v2 h2
  have huniq : detect_unique_high cfg_default eigh obs_c5 pred_c5 =
      ["b", "a"] := by
    unfold detect_unique_high
    rw [hord]
    rw [show obs_c5.basis = ["a", "b"] from rfl]
    simp only [List.map_cons, List.map_nil]
    rw [t1, t2]
    rfl
  have habl : detect_ablate_indices cfg_default eigh obs_c5 pred_c5 =
      [1, 0] := by
    unfold detect_ablate_indices
    rw [huniq]
    rfl
  have hab : spectral_ablate obs_c5.amplitudes pred_c5.amplitudes [1, 0] = 1 := by
    simp only [spectral_ablate]
    rw [show (List.range obs_c5.amplitudes.length).map
        (fun i => if i ∈ [1, 0] then (0 : ℂ) else obs_c5.amplitudes.getD i 0) =
        [0, 0] from rfl]
    have h00 : l2norm [(0 : ℂ), 0] = 0 := by simp [l2norm, norm_sq_sum]
    rw [h00, if_neg (lt_irrefl 0)]
    rw [show list_sub [(0 : ℂ), 0] pred_c5.amplitudes = [0, -1] from by
      simp [pred_c5, list_sub]]
    simp [l2norm, norm_sq_sum]
  have herrn : (error_operator obs_c5.amplitudes pred_c5.amplitudes).2 =
      Real.sqrt 2 := by
    show l2norm (list_sub obs_c5.amplitudes pred_c5.amplitudes) = Real.sqrt 2
    rw [show list_sub obs_c5.amplitudes pred_c5.amplitudes = [1, -1] from by
      simp [obs_c5, pred_c5, list_sub]]
    simp [l2norm, norm_sq_sum]
    norm_num
  have himp : detect_improvement cfg_default eigh obs_c5 pred_c5 =
      1 - Real.sqrt 2 := by
    unfold detect_improvement
    rw [habl, hab, herrn]
  have hlen0 : ¬(obs_c5.amplitudes.length = 0) := by
    rw [show obs_c5.amplitudes.length = 2 from rfl]
    norm_num
  unfold detect
  rw [if_neg hlen0]
  constructor
  · show decide (detect_improvement cfg_default eigh obs_c5 pred_c5 <
      -cfg_default.improvement_tolerance) = true
    apply decide_eq_true
    rw [himp, show cfg_default.improvement_tolerance = 1e-6 from rfl]
    have hs : Real.sqrt 2 ^ 2 = 2 := Real.sq_sqrt (by norm_num)
    have hge : 0 ≤ Real.sqrt 2 := Real.sqrt_nonneg 2
    nlinarith
  · show "a" ∈ detect_unique_high cfg_default eigh obs_c5 pred_c5
    rw [huniq]
    simp

/-- The common magnitude `1/√2` of the components of every unit eigenvector
of the C5 error operator, as a complex scalar. -/
noncomputable def c_half : ℂ := ((Real.sqrt (1 / 2) : ℝ) : ℂ)

/-- A concrete eigensolver output realizing the `eigh` contract on the C5
error operator: eigenvalue 0 with eigenvector `[1, 1]/√2` and eigenvalue 2
with eigenvector `[1, -1]/√2`, in ascending eigenvalue order. -/
noncomputable def eigh_c5 : Eigh :=
  fun _ _ => [(0, [c_half, c_half]), (2, [c_half, -c_half])]

theorem normSq_c_half : Complex.normSq c_half = 1 / 2 := by
  rw [c_half, Complex.normSq_ofReal, Real.mul_self_sqrt (by norm_num)]

theorem unit_eigvec_c5_v1 : unit_eigvec oe_c5 2 0 [c_half, c_half] := by
  refine ⟨rfl, ?_, ?_⟩
  · simp [norm_sq_sum, normSq_c_half]
    norm_num
  · intro i hi
    interval_cases i
    · show oe_c5 0 0 * _ + (oe_c5 0 1 * _ + 0) = _
      rw [oe_c5_00, oe_c5_01]
      push_cast
      simp only [List.getD_cons_zero, List.getD_cons_succ]
      ring
    · show oe_c5 1 0 * _ + (oe_c5 1 1 * _ + 0) = _
      rw [oe_c5_10, oe_c5_11]
      push_cast
      simp only [List.getD_cons_zero, List.getD_cons_succ]
      ring

theorem unit_eigvec_c5_v2 : unit_eigvec oe_c5 2 2 [c_half, -c_half] := by
  refine ⟨rfl, ?_, ?_⟩
  · simp [norm_sq_sum, normSq_c_half]
    norm_num
  · intro i hi
    interval_cases i
    · show oe_c5 0 0 * _ + (oe_c5 0 1 * _ + 0) = _
      rw [oe_c5_00, oe_c5_01]
      push_cast
      simp only [List.getD_cons_zero, List.getD_cons_succ]
      ring
    · show oe_c5 1 0 * _ + (oe_c5 1 1 * _ + 0) = _
      rw [oe_c5_10, oe_c5_11]
      push_cast
      simp only [List.getD_cons_zero, List.getD_cons_succ]
      ring

/-- C5 witness: the concrete eigensolver `eigh_c5` satisfies the contract,
and the detection on the concrete observed/predicted pair triggers with
`"a"` among the rogue segments. -/
theorem C5_detect_triggers_witness :
    (detect cfg_default eigh_c5 obs_c5 pred_c5).triggered = true ∧
    "a" ∈ (detect cfg_default eigh_c5 obs_c5 pred_c5).rogue_segments :=
  C5_detect_triggers eigh_c5 0 2 [c_half, c_half] [c_half, -c_half] rfl
    unit_eigvec_c5_v1 unit_eigvec_c5_v2

/-- `RogueVariableLibrary.record` from `core/qrv/rvl.py`, with the
in-memory list passed explicitly and both durable sinks as fallible
functions: the record is appended to the in-memory log first
(`self._in_memory.append(record)`), after which the unguarded
`_write_audit` call propagates any failure of the audit-file sink; only if
it succeeds does the external graph-store mirror (`_persist_neo4j`, a no-op
when the repository is the in-memory one, modelled by `none`) run.  The
returned list reflects the append even when the call terminates with an
error, matching the Python object state after the exception. -/
def rvl_record (audit_sink : RogueEventRecord → Except String Unit)
    (neo4j_sink : Option (RogueEventRecord → Except String Unit))
    (in_memory : List RogueEventRecord) (record : RogueEventRecord) :
    List RogueEventRecord × Except String Unit :=
  let mem := in_memory ++ [record]
  match audit_sink record with
  | .error e => (mem, .error e)
  | .ok _ =>
    match neo4j_sink with
    | none => (mem, .ok ())
    | some sink => (mem, sink record)

/-- `RogueVariableLibrary.list_events` from `core/qrv/rvl.py`, for the
in-memory repository configuration (the Neo4j merge branch is skipped by
the `isinstance` guard).  A record is skipped only when
`session_id and rec.session_id != session_id`; a `None` or empty-string
filter (both falsy in Python) keeps every record. -/
def rvl_list_events (in_memory : List RogueEventRecord)
    (session_id : Option String) : List RogueEventRecord :=
  in_memory.filter (fun rec =>
    match session_id with
    | none => true
    | some sid => sid == "" || rec.session_id == sid)

/-- A concrete detection result for rogue-event records. -/
noncomputable def det_c2 : RogueDetectionResult :=
  { triggered := true, error_norm := 1, ablation_improvement := -1,
    rogue_segments := ["a"], event_id := some "ev2" }

/-- A concrete rogue-event record. -/
noncomputable def rec_c2 : RogueEventRecord :=
  { id := "ev2", session_id := "s", t_rel_ms := 10, detection := det_c2 }

/-- An audit sink whose write always raises. -/
def audit_fail : RogueEventRecord → Except String Unit :=
  fun _ => .error "audit write failed"

/-- C2 evaluation at the failing input: `record` has no try/except around
`_write_audit`, so a raising audit sink makes `record` itself terminate
with that error instead of swallowing it. -/
theorem C2_record_raises_on_sink_failure :
    (rvl_record audit_fail none [] rec_c2).2 =
      Except.error "audit write failed" := rfl

/-- C10: the in-memory append happens before any durable-sink write, so on
a failing sink the call errors, yet the record is already in the returned
in-memory log and is returned by a subsequent `list_events` filtered to its
session id. -/
theorem C10_record_in_memory_first
    (audit_sink : RogueEventRecord → Except String Unit)
    (neo4j_sink : Option (RogueEventRecord → Except String Unit))
    (mem : List RogueEventRecord) (rec : RogueEventRecord) (e : String)
    (hfail : audit_sink rec = Except.error e) :
    (rvl_record audit_sink neo4j_sink mem rec).2 = Except.error e ∧
    rec ∈ (rvl_record audit_sink neo4j_sink mem rec).1 ∧
    rec ∈ rvl_list_events (rvl_record audit_sink neo4j_sink mem rec).1
      (some rec.session_id) := by
  have hfst : (rvl_record audit_sink neo4j_sink mem rec).1 = mem ++ [rec] := by
    unfold rvl_record
    rw [hfail]
  have hmem : rec ∈ (rvl_record audit_sink neo4j_sink mem rec).1 := by
    rw [hfst]; simp
  refine ⟨by unfold rvl_record; rw [hfail], hmem, ?_⟩
  unfold rvl_list_events
  rw [List.mem_filter]
  exact ⟨hmem, by simp⟩

/-- C10 witness: the concrete record with the always-failing audit sink. -/
theorem C10_record_in_memory_first_witness :
    (rvl_record audit_fail none [] rec_c2).2 =
      Except.error "audit write failed" ∧
    rec_c2 ∈ (rvl_record audit_fail none [] rec_c2).1 ∧
    rec_c2 ∈ rvl_list_events (rvl_record audit_fail none [] rec_c2).1
      (some rec_c2.session_id) :=
  C10_record_in_memory_first audit_fail none [] rec_c2 "audit write failed" rfl

/-- The result dict of `RosettaStoneAligner.align` (`core/qrv/rsl.py`). -/
structure AlignResult where
  basis : List String
  aligned_state : List ℂ
  norm : ℝ

/-- `RosettaStoneAligner.align` at the manager's configuration: the manager
constructs `RosettaStoneAligner()` with `noise = 0.0`, so the Gaussian
phase-noise branch (`if self.noise > 0`) is never taken and `align` only
re-normalizes the amplitude vector. -/
noncomputable def rsl_align (qms : QMSState) : AlignResult :=
  let vec := qms.amplitudes
  let norm := l2norm vec
  let vec1 := if 0 < norm then vec.map (fun a => a / ((norm : ℝ) : ℂ)) else vec
  { basis := qms.basis, aligned_state := vec1, norm := norm }

/-- The session-keyed mutable state of `QRVManager`: the `last observed QMS`
cache, the HILD sessions dict, and the RVL in-memory log. -/
structure ManagerState where
  last_qms : String → Option QMSState
  hild : HILDMachine
  rvl_in_memory : List RogueEventRecord

/-- The bundle `process_tick` returns on success. -/
structure TickResult where
  qms_observed : QMSState
  qms_predicted : QMSState
  detection : RogueDetectionResult
  hild_status : HILDStatus
  aligned : AlignResult
  event_id : Option String

/-- `QRVManager.process_tick` from `core/qrv/manager.py`, at the in-memory
repository configuration with no bus attached (`bus=None` makes
`_publish_event` a no-op).  The `uuid.uuid4()` event id is external entropy
passed in as `fresh_event_id`.  The method has no try/except: a failure of
`build_from_segments` (that is, of the graph accessor's `top_segments`) or
of the RVL durable sink propagates out of the manager boundary unhandled,
which the `Except.error` result models.  `dt` follows
`max(t_rel_ms - (prev.t_rel_ms or t_rel_ms), 1.0) / 1000.0`, where Python's
`or` also replaces a 0.0 timestamp. -/
noncomputable def process_tick (repo : Repo) (w : Weights)
    (cfg : DetectorConfig) (eigh : Eigh)
    (audit_sink : RogueEventRecord → Except String Unit) (diag_damping : ℝ)
    (qms_limit : ℕ) (ms : ManagerState) (session_id : String) (t_rel_ms : ℝ)
    (feature_overrides : Option (List ℝ)) (fresh_event_id : String) :
    Except String (ManagerState × TickResult) :=
  match build_from_segments repo w true session_id t_rel_ms qms_limit
      feature_overrides with
  | .error e => .error e
  | .ok observed =>
    let prev := (ms.last_qms session_id).getD observed
    let prev_t :=
      match prev.t_rel_ms with
      | none => t_rel_ms
      | some v => if v = 0 then t_rel_ms else v
    let dt := max (t_rel_ms - prev_t) 1 / 1000
    let predicted := ham_predict repo diag_damping prev dt
    let detection0 := detect cfg eigh observed predicted
    let detection :=
      if detection0.triggered = true then
        { detection0 with event_id := some fresh_event_id }
      else detection0
    let event_id : Option String :=
      if detection0.triggered = true then some fresh_event_id else none
    let recorded :
        (List RogueEventRecord × Except String Unit) :=
      if detection0.triggered = true then
        rvl_record audit_sink none ms.rvl_in_memory
          { id := fresh_event_id, session_id := session_id,
            t_rel_ms := t_rel_ms, detection := detection }
      else (ms.rvl_in_memory, .ok ())
    match recorded.2 with
    | .error e => .error e
    | .ok _ =>
      let ticked := hild_on_tick ms.hild session_id t_rel_ms detection
      let ms1 : ManagerState :=
        { last_qms := Function.update ms.last_qms session_id (some observed),
          hild := ticked.1, rvl_in_memory := recorded.1 }
      .ok (ms1,
        { qms_observed := observed, qms_predicted := predicted,
          detection := detection, hild_status := ticked.2,
          aligned := rsl_align observed, event_id := event_id })

/-- A repository whose `top_segments` raises, as a graph store outage does. -/
noncomputable def repo_down : Repo :=
  { top_segments := fun _ => .error "graph accessor unavailable",
    get_segment_states := fun _ _ => .ok [],
    get_graph := fun _ => [] }

/-- C3 evaluation at the failing input: `process_tick` has no try/except,
so when an internal component of the tick raises (here the graph accessor's
`top_segments`), the exception crosses the manager boundary unhandled — for
every manager state, session and configuration — instead of being caught
and returned as a distinct error result. -/
theorem C3_tick_propagates_component_failure (w : Weights)
    (cfg : DetectorConfig) (eigh : Eigh)
    (audit_sink : RogueEventRecord → Except String Unit) (diag_damping : ℝ)
    (qms_limit : ℕ) (ms : ManagerState) (session_id : String) (t_rel_ms : ℝ)
    (feature_overrides : Option (List ℝ)) (fresh_event_id : String) :
    process_tick repo_down w cfg eigh audit_sink diag_damping qms_limit ms
      session_id t_rel_ms feature_overrides fresh_event_id =
      Except.error "graph accessor unavailable" := by
  unfold process_tick
  rw [show build_from_segments repo_down w true session_id t_rel_ms qms_limit
      feature_overrides = Except.error "graph accessor unavailable" from rfl]

end QRV
